import Mathlib

/-!
Verification development for the QuTiP Monte-Carlo wavefunction solver
(`qutip/mcsolve.py`).

The numerical collaborators of the solver (the scipy `zvode` adaptive
integrator, the BLAS `dznrm2` norm, the sparse matrix-vector products
`spmv_csr` and expectation kernels `cy_expect_psi_csr`, `np.log`, and the
`RandomState` pseudo-random stream) are external to the file under study;
they are modelled as oracle fields of `MCOracles`, exactly at the call
boundary used by `_mc_alg_evolve`.  All arithmetic visible in the file
itself (thresholds, interpolation formulas, cumulative sums, buffer
updates) is embedded over `ℚ`.
-/

/-- Error message of line 817/824 of mcsolve.py. -/
def zvodeMsg : String := "ZVODE failed!"

/-- Error message of lines 838-839 of mcsolve.py. -/
def zvodeAdjustMsg : String := "ZVODE failed after adjusting step size!"

/-- Error message of lines 854-856 of mcsolve.py. -/
def normTolMsg : String :=
  "Norm tolerance not reached. Increase accuracy of ODE solver or Odeoptions.norm_steps."

/-- Raised by `cinds[kk >= rand_vals[1]][0]` when the boolean mask is empty. -/
def indexMsg : String := "IndexError: index 0 is out of bounds"

/-- Raised by `_MC_class.callback` (line 396, `r = results[0]`) when
`_mc_alg_evolve` returned `None` after catching an exception. -/
def typeErrorMsg : String := "TypeError: NoneType object is not subscriptable"

/-- Solver configuration consumed by one trajectory: collapse-channel
bookkeeping from `_mc_data_config` (`c_num`, `c_const_inds`, `c_td_inds`,
whether the run is in a time-dependent-collapse class, i.e.
`tflag in [2, 20, 22]`, versus the all-constant class `tflag == 0`) and the
jump-time refinement tolerances (`Odeoptions.norm_tol`, `norm_steps`). -/
structure MCConfig where
  cNum : ℕ
  cConstInds : List ℕ
  cTdInds : List ℕ
  tdCollapse : Bool
  normTol : ℚ
  normSteps : ℕ
deriving DecidableEq

/-- External collaborators of `_mc_alg_evolve`, one oracle per foreign call:
`step tk (t, y)` is `ODE.integrate(tlist[k], step=1)` from state `(t, y)`
(`none` models `ODE.successful()` false); `integrateTo (t, y) tg` is
`ODE.set_initial_value(y, t); ODE.integrate(tg, step=0)`; `dznrm2` the BLAS
Euclidean norm; `logQ` is `np.log`; `expectW i y` is
`cy_expect_psi_csr(n_ops[i], ..., y, 1)`; `coefAbs i t` is
`abs(c_funcs[i](t, args))`; `applyC j y` is `spmv_csr(c_ops[j], ..., y)`;
`coefMul j t v` is multiplication of a state by `c_funcs[j](t, args)`;
`scaleDiv s v` is componentwise division of a state by the scalar `s`. -/
structure MCOracles (σ : Type) where
  step : ℚ → ℚ × σ → Option (ℚ × σ)
  integrateTo : ℚ × σ → ℚ → Option σ
  dznrm2 : σ → ℚ
  logQ : ℚ → ℚ
  expectW : ℕ → σ → ℚ
  coefAbs : ℕ → ℚ → ℚ
  applyC : ℕ → σ → σ
  coefMul : ℕ → ℚ → σ → σ
  scaleDiv : ℚ → σ → σ

/-- The bracket maintained by the jump-time search of lines 829-852:
lower endpoint `(tPrev, yPrev, norm2Prev)` and upper endpoint
`(tFinal, norm2Psi)` (the code keeps no state vector for the upper end). -/
structure JumpState (σ : Type) where
  tPrev : ℚ
  yPrev : σ
  norm2Prev : ℚ
  tFinal : ℚ
  norm2Psi : ℚ
deriving DecidableEq

/-- Outcome of one iteration of the jump-search loop: either the guess
converged (`jumped`, the integrator now sits at the guess), or the loop
continues with an updated bracket (the integrator also sits at the guess). -/
inductive JumpIterRes (σ : Type) where
  | jumped (t : ℚ) (y : σ)
  | next (js : JumpState σ) (t : ℚ) (y : σ)
deriving DecidableEq

/-- One iteration of the jump-time refinement loop, lines 832-852:
log-linear interpolation for `t_guess`, exact re-integration from the lower
bracket endpoint, convergence test against `norm_tol * r1`, and bracket
update. -/
def jumpIter {σ : Type} (o : MCOracles σ) (normTol r1 : ℚ) (js : JumpState σ) :
    Except String (JumpIterRes σ) :=
  let tGuess := js.tPrev +
    o.logQ (js.norm2Prev / r1) / o.logQ (js.norm2Prev / js.norm2Psi) *
      (js.tFinal - js.tPrev)
  match o.integrateTo (js.tPrev, js.yPrev) tGuess with
  | none => .error zvodeAdjustMsg
  | some y =>
    let norm2Guess := o.dznrm2 y ^ 2
    if |r1 - norm2Guess| < normTol * r1 then
      .ok (.jumped tGuess y)
    else if norm2Guess < r1 then
      .ok (.next { js with tFinal := tGuess, norm2Psi := norm2Guess } tGuess y)
    else
      .ok (.next { js with tPrev := tGuess, yPrev := y, norm2Prev := norm2Guess } tGuess y)

/-- The `while ii < odeconfig.norm_steps` loop of lines 831-852.  `ii` is the
explicit iteration counter of the source; `fuel` (instantiated with
`norm_steps` by `findJumpTime`) makes the recursion structural; `cur` is the
integrator position `(ODE.t, ODE.y)` reported if the loop body never runs.
Returns the final `ii` together with the integrator position. -/
def normLoop {σ : Type} (o : MCOracles σ) (cfg : MCConfig) (r1 : ℚ) :
    ℕ → ℕ → JumpState σ → ℚ × σ → Except String (ℕ × ℚ × σ)
  | ii, 0, _, cur => .ok (ii, cur)
  | ii, fuel + 1, js, cur =>
    if ii < cfg.normSteps then
      match jumpIter o cfg.normTol r1 js with
      | .error e => .error e
      | .ok (.jumped t y) => .ok (ii + 1, t, y)
      | .ok (.next js' t y) => normLoop o cfg r1 (ii + 1) fuel js' (t, y)
    else .ok (ii, cur)

/-- Jump-time location, lines 829-856: run the refinement loop from `ii = 0`,
then apply the source's post-loop check `if ii > odeconfig.norm_steps: raise
Exception("Norm tolerance not reached. ...")`. -/
def findJumpTime {σ : Type} (o : MCOracles σ) (cfg : MCConfig) (r1 : ℚ)
    (js : JumpState σ) (cur : ℚ × σ) : Except String (ℚ × σ) :=
  match normLoop o cfg r1 0 cfg.normSteps js cur with
  | .error e => .error e
  | .ok (ii, t, y) =>
    if ii > cfg.normSteps then .error normTolMsg else .ok (t, y)

/-- `numpy.cumsum` of a rational list. -/
def cumsum : List ℚ → List ℚ
  | [] => []
  | x :: xs => x :: (cumsum xs).map (fun c => x + c)

/-- Index of the first element satisfying `p`; this is the semantics of
`cinds[mask][0]` with `cinds = arange(len(l))` and mask `l.map p`
(`none` models the `IndexError` on an empty mask). -/
def firstSatIdx (p : ℚ → Bool) : List ℚ → Option ℕ
  | [] => none
  | x :: xs => if p x then some 0 else (firstSatIdx p xs).map (fun i => i + 1)

/-- The cumulative normalized weights `kk = cumsum(n_dp / sum(n_dp))` of
line 894. -/
def cumProbs (nDp : List ℚ) : List ℚ :=
  cumsum (nDp.map (fun w => w / nDp.sum))

/-- Lines 894-895: `kk = cumsum(n_dp / sum(n_dp)); j = cinds[kk >= rand_vals[1]][0]`. -/
def selectChannel (nDp : List ℚ) (r2 : ℚ) : Option ℕ :=
  firstSatIdx (fun c => decide (r2 ≤ c)) (cumProbs nDp)

/-- Decay weights `n_dp` at a jump, lines 860-891.  In the
time-dependent-collapse classes (`tflag in [2, 20, 22]`, and identically
shaped for the cython classes 1/11) the list is built as constant-rate
channels in `c_const_inds` order followed by time-dependent-rate channels in
`c_td_inds` order, the latter weighted by `abs(c_funcs[i](t))**2`; in the
all-constant class it runs over `range(c_num)`. -/
def buildWeights {σ : Type} (o : MCOracles σ) (cfg : MCConfig) (t : ℚ) (y : σ) :
    List ℚ :=
  if cfg.tdCollapse then
    (cfg.cConstInds.map fun i => o.expectW i y) ++
      (cfg.cTdInds.map fun i => o.coefAbs i t ^ 2 * o.expectW i y)
  else
    (List.range cfg.cNum).map fun i => o.expectW i y

/-- Lines 897-915: apply the selected collapse operator (scaled by its
coefficient at the jump time when channel `j` is time dependent) and
renormalize by `dznrm2(state)`. -/
def collapseApply {σ : Type} (o : MCOracles σ) (cfg : MCConfig) (j : ℕ)
    (t : ℚ) (y : σ) : σ :=
  let state0 := if j ∈ cfg.cConstInds then o.applyC j y else o.coefMul j t (o.applyC j y)
  o.scaleDiv (o.dznrm2 state0) state0

/-- `np.append`: returns a new array, leaving the argument untouched.  The
source calls it at lines 858 and 896 and discards the returned value. -/
def npAppend (l : List ℚ) (x : ℚ) : List ℚ := l ++ [x]

/-- Per-trajectory mutable state of `_mc_alg_evolve`: integrator position
`(t, y)`, the index of the next unconsumed value of the trajectory's
`RandomState` stream, the current `rand_vals = (r1, r2)`, and the
`collapse_times` / `which_oper` arrays. -/
structure TrajState (σ : Type) where
  t : ℚ
  y : σ
  rIdx : ℕ
  r1 : ℚ
  r2 : ℚ
  colTimes : List ℚ
  whichOper : List ℚ
deriving DecidableEq

/-- The `while ODE.t < tlist[k]` loop of lines 810-917: single adaptive step
toward `tk`, rollback and exact landing on overshoot, norm test against
`r1`, and on a jump: time refinement, (discarded) `np.append` of the
collapse time, weight construction, channel selection, (discarded)
`np.append` of the channel, collapse application, integrator
re-initialization and redraw of `rand_vals`.  `fuel` bounds the number of
loop iterations. -/
def innerLoop {σ : Type} (o : MCOracles σ) (cfg : MCConfig) (prng : ℕ → ℚ)
    (tk : ℚ) : ℕ → TrajState σ → Except String (TrajState σ)
  | 0, s => if s.t < tk then .error zvodeMsg else .ok s
  | fuel + 1, s =>
    if s.t < tk then
      let tPrev := s.t
      let yPrev := s.y
      let norm2Prev := o.dznrm2 s.y ^ 2
      match o.step tk (s.t, s.y) with
      | none => .error zvodeMsg
      | some (t1, y1) =>
        let landed : Except String (ℚ × σ) :=
          if tk < t1 then
            match o.integrateTo (tPrev, yPrev) tk with
            | none => .error zvodeMsg
            | some y2 => .ok (tk, y2)
          else .ok (t1, y1)
        match landed with
        | .error e => .error e
        | .ok (t2, y2) =>
          let norm2Psi := o.dznrm2 y2 ^ 2
          if norm2Psi ≤ s.r1 then
            match findJumpTime o cfg s.r1 ⟨tPrev, yPrev, norm2Prev, t2, norm2Psi⟩ (t2, y2) with
            | .error e => .error e
            | .ok (tJ, yJ) =>
              let _ := npAppend s.colTimes tJ
              let nDp := buildWeights o cfg tJ yJ
              match selectChannel nDp s.r2 with
              | none => .error indexMsg
              | some j =>
                let _ := npAppend s.whichOper (j : ℚ)
                let yNew := collapseApply o cfg j tJ yJ
                innerLoop o cfg prng tk fuel
                  { t := tJ, y := yNew, rIdx := s.rIdx + 2,
                    r1 := prng s.rIdx, r2 := prng (s.rIdx + 1),
                    colTimes := s.colTimes, whichOper := s.whichOper }
          else
            innerLoop o cfg prng tk fuel { s with t := t2, y := y2 }
    else .ok s

/-- The `for k in range(1, num_times)` loop of lines 808-944, in the
`e_num == 0`, non-averaged output configuration: after reaching `tlist[k]`,
store the normalized state `ODE.y / dznrm2(ODE.y)` in slot `k` of
`mc_alg_out` (slot 0 was pre-filled by `_MC_class.run`). -/
def outerFold {σ : Type} (o : MCOracles σ) (cfg : MCConfig) (prng : ℕ → ℚ)
    (tlist : List ℚ) (fuel : ℕ) :
    List ℕ → List σ × TrajState σ → Except String (List σ × TrajState σ)
  | [], st => .ok st
  | k :: ks, (buf, s) =>
    match innerLoop o cfg prng (tlist.getD k 0) fuel s with
    | .error e => .error e
    | .ok s1 =>
      let outPsi := o.scaleDiv (o.dznrm2 s1.y) s1.y
      outerFold o cfg prng tlist fuel ks (buf.set k outPsi, s1)

/-- Body of `_mc_alg_evolve` (lines 757-955) before the exception handler:
seed the trajectory's RNG stream from `seeds[nt]` (`prngOf`), draw
`rand_vals = prng.rand(2)`, set the initial condition `(psi0, tlist[0])`,
and run the outer time loop over `k = 1 .. num_times - 1`. -/
def mcAlgEvolveCore {σ : Type} (o : MCOracles σ) (cfg : MCConfig)
    (prngOf : ℕ → ℕ → ℚ) (psi0 : σ) (fuel : ℕ) (nt : ℕ) (mcAlgOut : List σ)
    (tlist : List ℚ) (numTimes : ℕ) (seeds : List ℕ) :
    Except String (List σ × TrajState σ) :=
  let prng := prngOf (seeds.getD nt 0)
  let s0 : TrajState σ :=
    { t := tlist.getD 0 0, y := psi0, rIdx := 2, r1 := prng 0, r2 := prng 1,
      colTimes := [], whichOper := [] }
  outerFold o cfg prng tlist fuel ((List.range numTimes).drop 1) (mcAlgOut, s0)

/-- `_mc_alg_evolve` with its `try ... except` wrapper (lines 757, 957-958):
on success return `(nt, mc_alg_out, collapse_times, which_oper)`; on any
exception print a message and return `None`. -/
def mcAlgEvolve {σ : Type} (o : MCOracles σ) (cfg : MCConfig)
    (prngOf : ℕ → ℕ → ℚ) (psi0 : σ) (fuel : ℕ) (nt : ℕ) (mcAlgOut : List σ)
    (tlist : List ℚ) (numTimes : ℕ) (seeds : List ℕ) :
    Option (ℕ × List σ × List ℚ × List ℚ) :=
  match mcAlgEvolveCore o cfg prngOf psi0 fuel nt mcAlgOut tlist numTimes seeds with
  | .ok (buf, s) => some (nt, buf, s.colTimes, s.whichOper)
  | .error _ => none

/-!
Orchestration layer: `_MC_class.serial`, `_MC_class.parallel`,
`_MC_class.callback` and `_MC_class.run`.

`run` (line 507) builds `args = (mc_alg_out, options, tlist, num_times,
seeds)` once.  In the serial path (lines 409-415) every call
`_mc_alg_evolve(nt, args, odeconfig)` therefore receives the same
`mc_alg_out` object: the trajectory mutates it in place and returns it, and
`callback` stores that same reference into `psi_out[r]`, so after the run
every `psi_out[r]` dereferences to the final contents of the one shared
buffer.  In the process-pool path (lines 426-429) `apply_async` pickles
`args` for each task, so every trajectory works on an independent copy of
the initial buffer and the callback receives an independent value.  A
trajectory function here is `ev : ℕ → β → Option (β × List ℚ × List ℚ)`:
given the buffer contents it sees, it returns the new buffer contents plus
the `collapse_times` and `which_oper` arrays, or `none` when
`_mc_alg_evolve` caught an exception and returned `None` — in which case
`callback`'s `r = results[0]` raises a `TypeError`.
-/

/-- Serial loop, lines 409-415 plus `callback`: one shared buffer threaded
through the trajectories; collapse logs collected by value. -/
def serialGo {β : Type} (ev : ℕ → β → Option (β × List ℚ × List ℚ)) :
    List ℕ → β → List (List ℚ) → List (List ℚ) →
    Except String (β × List (List ℚ) × List (List ℚ))
  | [], buf, cs, ws => .ok (buf, cs, ws)
  | nt :: nts, buf, cs, ws =>
    match ev nt buf with
    | none => .error typeErrorMsg
    | some (buf', ct, wo) => serialGo ev nts buf' (cs ++ [ct]) (ws ++ [wo])

/-- `_MC_class.serial`: after the loop, every `psi_out[r]` holds a reference
to the single shared `mc_alg_out`, so dereferencing the output array yields
`n` copies of its final contents. -/
def mcSerial {β : Type} (ev : ℕ → β → Option (β × List ℚ × List ℚ))
    (init : β) (n : ℕ) :
    Except String (List β × List (List ℚ) × List (List ℚ)) :=
  match serialGo ev (List.range n) init [] [] with
  | .error e => .error e
  | .ok (buf, cs, ws) => .ok (List.replicate n buf, cs, ws)

/-- Process-pool loop body: each task gets a pickled copy of `init` and its
result is sent back by value. -/
def parallelGo {β : Type} (ev : ℕ → β → Option (β × List ℚ × List ℚ))
    (init : β) :
    List ℕ → Except String (List β × List (List ℚ) × List (List ℚ))
  | [] => .ok ([], [], [])
  | nt :: nts =>
    match ev nt init with
    | none => .error typeErrorMsg
    | some (buf', ct, wo) =>
      match parallelGo ev init nts with
      | .error e => .error e
      | .ok (bufs, cs, ws) => .ok (buf' :: bufs, ct :: cs, wo :: ws)

/-- `_MC_class.parallel` pool dispatch, merged by trajectory index. -/
def mcParallelPool {β : Type} (ev : ℕ → β → Option (β × List ℚ × List ℚ))
    (init : β) (n : ℕ) :
    Except String (List β × List (List ℚ) × List (List ℚ)) :=
  parallelGo ev init (List.range n)

/-- `_MC_class.parallel`, lines 417-438: `if self.cpus == 1 or
self.odeconfig.ntraj == 1: self.serial(args, top)` else dispatch to the
process pool. -/
def mcRunTrajectories {β : Type} (cpus : ℕ)
    (ev : ℕ → β → Option (β × List ℚ × List ℚ)) (init : β) (n : ℕ) :
    Except String (List β × List (List ℚ) × List (List ℚ)) :=
  if cpus = 1 ∨ n = 1 then mcSerial ev init n else mcParallelPool ev init n

/-- Output selection of `mcsolve`, lines 258-292, for a scalar `ntraj`:
the averaged-states branch requires `psi_out` present, `average_states`,
`cflag` and `ntraj != 1`; otherwise raw states; the averaged-expectation
branch requires no `psi_out`, `cflag` and `average_expect`; otherwise raw
expectation values.  `avgS` and `avgE` stand for the two averaging
reductions (`parfor(_mc_dm_avg, ...)` and the trajectory mean). -/
def mcsolveOutput {α γ : Type} (psiOut : Option α) (expectOut : γ)
    (avgStates avgExpect cflag : Bool) (ntraj : ℕ)
    (avgS : α → α) (avgE : γ → γ) : Option α × Option γ :=
  match psiOut with
  | some p =>
    if avgStates ∧ cflag ∧ ntraj ≠ 1 then (some (avgS p), none)
    else (some p, none)
  | none =>
    if cflag ∧ avgExpect then (none, some (avgE expectOut))
    else (none, some expectOut)

/-- `_MC_class.run` (lines 440-461) together with `output.ntraj =
odeconfig.ntraj` (line 298).  Returns `(reported ntraj, notice printed,
number of trajectory evolutions executed, RNG seeds generated)`.  With no
collapse operators the requested count is overridden to 1 with a printed
notice and a single deterministic `_no_collapse_*` evolution runs, touching
no seeds; otherwise seeds are generated and `ntraj` trajectories run. -/
def mcRunMeta (cNum requested : ℕ) : ℕ × Bool × ℕ × Bool :=
  if cNum = 0 then
    let noticed := requested ≠ 1
    (1, noticed, 1, false)
  else
    (requested, false, requested, true)

/-!
Steady-state averaging algebra.  `M` stands for the space of (dense)
density matrices, an additive group with rational scalar multiplication;
`rho nt k` is the outer product `psi(t_k) psi(t_k)^dag` of trajectory `nt`
at output time `t_k`.
-/

/-- Per-trajectory steady-state output: the accumulator starts with the
initial outer product placed in `mc_alg_out[0]` by `_MC_class.run`
(line 486), each pass of the `for k in range(1, num_times)` loop adds the
outer product at `tlist[k]` (lines 932-933), and at the end the sum is
divided by `float(len(tlist))` (line 948). -/
def ssTrajOut {M : Type} [AddCommGroup M] [Module ℚ M]
    (rhoInit : M) (rho : ℕ → M) (K : ℕ) : M :=
  ((K : ℚ))⁻¹ • (((List.range K).drop 1).foldl (fun b k => b + rho k) rhoInit)

/-- `_mc_dm_avg` (lines 1300-1309): unweighted mean of a list of density
matrices. -/
def mcDmAvg {M : Type} [AddCommGroup M] [Module ℚ M] (l : List M) : M :=
  ((l.length : ℚ))⁻¹ • l.sum

/-- Final steady-state density matrix: `output.states =
parfor(_mc_dm_avg, mc.psi_out.T)` (line 263) applied to the length-one
per-trajectory outputs, with each trajectory owning an independent
accumulator copy as in the process-pool path. -/
def ssFinal {M : Type} [AddCommGroup M] [Module ℚ M]
    (rhoInit : M) (rho : ℕ → ℕ → M) (n K : ℕ) : M :=
  mcDmAvg ((List.range n).map fun nt => ssTrajOut rhoInit (rho nt) K)

/-- The flat list of every per-trajectory, per-time density matrix. -/
def allDms {M : Type} [AddCommGroup M] [Module ℚ M]
    (rho : ℕ → ℕ → M) (n K : ℕ) : List M :=
  (((List.range n).map fun nt => (List.range K).map (rho nt))).flatten

/-!
Rational complex vectors, for the post-jump renormalization of lines
915-917.  `dznrm2` itself is BLAS; its defining contract is that its square
is the sum of the squared moduli of the entries.
-/

/-- A complex number with rational parts. -/
structure Qc where
  re : ℚ
  im : ℚ
deriving DecidableEq

/-- Squared modulus. -/
def Qc.modSq (c : Qc) : ℚ := c.re ^ 2 + c.im ^ 2

/-- Division of a complex entry by a real scalar. -/
def Qc.divR (c : Qc) (s : ℚ) : Qc := ⟨c.re / s, c.im / s⟩

/-- Squared Euclidean norm of a state vector. -/
def vecNormSq (v : List Qc) : ℚ := (v.map Qc.modSq).sum

/-- Componentwise division of a state vector by a real scalar: `state / s`. -/
def vecDivR (v : List Qc) (s : ℚ) : List Qc := v.map (fun c => Qc.divR c s)

/-- Result of the post-jump bookkeeping. -/
structure PostJumpRes where
  t : ℚ
  y : List Qc
  r1 : ℚ
  r2 : ℚ
  rIdx : ℕ
deriving DecidableEq

/-- Lines 915-917: `state = state / dznrm2(state); ODE.set_initial_value(
state, ODE.t); rand_vals = prng.rand(2)`.  `dz` is the BLAS `dznrm2`
oracle, `state0` the state after application of the collapse operator, `t`
the jump time `ODE.t`, and `rIdx` the next unconsumed index of the
trajectory's random stream. -/
def postJumpUpdate (dz : List Qc → ℚ) (prng : ℕ → ℚ) (t : ℚ)
    (state0 : List Qc) (rIdx : ℕ) : PostJumpRes :=
  { t := t, y := vecDivR state0 (dz state0),
    r1 := prng rIdx, r2 := prng (rIdx + 1), rIdx := rIdx + 2 }

/-!
Claim C5 — the jump-search iteration, stated from the specification's words
and proved equal to the source's iteration.
-/

/-- Modelled from the spec wording of section 4.4 step 3 (Jump-Search):
refine the jump time by log-linear interpolation of squared norm between
the bracket endpoints, re-integrating exactly from the lower bracket to the
interpolated guess time and re-evaluating the squared norm there; on a
non-converged guess, replace the upper bracket endpoint (time and squared
norm) when the squared norm at the guess is below `r1`, and otherwise the
lower bracket endpoint (time, state and squared norm). -/
def jumpIterSpec {σ : Type} (o : MCOracles σ) (normTol r1 : ℚ)
    (js : JumpState σ) : Except String (JumpIterRes σ) :=
  let tGuess := js.tPrev +
    (js.tFinal - js.tPrev) *
      (o.logQ (js.norm2Prev / r1) / o.logQ (js.norm2Prev / js.norm2Psi))
  match o.integrateTo (js.tPrev, js.yPrev) tGuess with
  | none => .error zvodeAdjustMsg
  | some psiG =>
    let n2 := o.dznrm2 psiG ^ 2
    if |r1 - n2| < normTol * r1 then .ok (.jumped tGuess psiG)
    else if n2 < r1 then
      .ok (.next ⟨js.tPrev, js.yPrev, js.norm2Prev, tGuess, n2⟩ tGuess psiG)
    else
      .ok (.next ⟨tGuess, psiG, n2, js.tFinal, js.norm2Psi⟩ tGuess psiG)

/-- Claim C5: each jump-search iteration computes the guess time by
log-linear interpolation of the squared norm between the bracket endpoints,
re-integrates exactly from the lower bracket to the guess, and on a
non-converged guess replaces the upper bracket endpoint when the squared
norm at the guess is below `r1` and the lower bracket endpoint (time, state
and squared norm) otherwise: the source iteration (lines 829-852) equals
the iteration described by the specification. -/
theorem jumpIter_refines_spec {σ : Type} (o : MCOracles σ) (normTol r1 : ℚ)
    (js : JumpState σ) :
    jumpIter o normTol r1 js = jumpIterSpec o normTol r1 js := by
  unfold jumpIter jumpIterSpec
  have h : js.tPrev +
      o.logQ (js.norm2Prev / r1) / o.logQ (js.norm2Prev / js.norm2Psi) *
        (js.tFinal - js.tPrev) =
      js.tPrev +
      (js.tFinal - js.tPrev) *
        (o.logQ (js.norm2Prev / r1) / o.logQ (js.norm2Prev / js.norm2Psi)) := by
    ring
  rw [h]

/-!
Claim C2 — the post-loop check `if ii > odeconfig.norm_steps` (line 853)
can never fire: the loop leaves `ii <= norm_steps`, so an unconverged
jump-time search falls through and the trajectory continues with the
unconverged guess.
-/

/-- The refinement loop cannot increase `ii` past `ii + fuel`. -/
lemma normLoop_counter_le {σ : Type} (o : MCOracles σ) (cfg : MCConfig)
    (r1 : ℚ) :
    ∀ (fuel ii : ℕ) (js : JumpState σ) (cur : ℚ × σ) (ii' : ℕ) (t : ℚ) (y : σ),
      normLoop o cfg r1 ii fuel js cur = .ok (ii', t, y) → ii' ≤ ii + fuel := by
  intro fuel
  induction fuel with
  | zero =>
    intro ii js cur ii' t y h
    simp only [normLoop] at h
    cases h
    omega
  | succ fuel ih =>
    intro ii js cur ii' t y h
    simp only [normLoop] at h
    split at h
    · cases hj : jumpIter o cfg.normTol r1 js with
      | error e => rw [hj] at h; cases h
      | ok res =>
        rw [hj] at h
        cases res with
        | jumped tj yj => cases h; omega
        | next js' tj yj =>
          have := ih (ii + 1) js' (tj, yj) ii' t y h
          omega
    · cases h; omega

/-- Any error produced by the refinement loop comes from the integrator. -/
lemma normLoop_error_msg {σ : Type} (o : MCOracles σ) (cfg : MCConfig)
    (r1 : ℚ) :
    ∀ (fuel ii : ℕ) (js : JumpState σ) (cur : ℚ × σ) (e : String),
      normLoop o cfg r1 ii fuel js cur = .error e → e = zvodeAdjustMsg := by
  intro fuel
  induction fuel with
  | zero =>
    intro ii js cur e h
    simp only [normLoop] at h
    exact Except.noConfusion h
  | succ fuel ih =>
    intro ii js cur e h
    simp only [normLoop] at h
    split at h
    · cases hj : jumpIter o cfg.normTol r1 js with
      | error e' =>
        rw [hj] at h
        cases h
        unfold jumpIter at hj
        simp only at hj
        split at hj
        · cases hj; rfl
        · split at hj <;> [skip; split at hj] <;> cases hj
      | ok res =>
        rw [hj] at h
        cases res with
        | jumped tj yj => cases h
        | next js' tj yj => exact ih (ii + 1) js' (tj, yj) e h
    · cases h

/-- Oracles for a concrete run in which no guess ever converges:
the state space is `ℚ`, `dznrm2` reads the state, every exact integration
lands on the fixed state `10` (squared norm `100`, far from any tolerance
band around `r1 = 1/2`), and `np.log` is replaced by the identity (any
oracle value works; the loop arithmetic is what matters). -/
def oNoConv : MCOracles ℚ :=
  { step := fun _ p => some p
    integrateTo := fun _ _ => some 10
    dznrm2 := fun y => y
    logQ := fun x => x
    expectW := fun _ _ => 1
    coefAbs := fun _ _ => 1
    applyC := fun _ y => y
    coefMul := fun _ _ y => y
    scaleDiv := fun s y => y / s }

/-- Configuration with `norm_steps = 3` and `norm_tol = 1/100`. -/
def cfgNoConv : MCConfig :=
  { cNum := 1, cConstInds := [0], cTdInds := [], tdCollapse := false,
    normTol := 1 / 100, normSteps := 3 }

/-- Claim C2 is violated by the source: the check `if ii > norm_steps` at
line 853 is unreachable (first conjunct: the jump-time search never returns
the "tolerance not reached" error, whatever the oracles and settings), and
a search that exhausts all `norm_steps` iterations without converging
returns successfully with the unconverged guess instead of aborting the
trajectory (second conjunct: a concrete never-converging run). -/
theorem findJumpTime_never_reports_tolerance :
    (∀ (σ : Type) (o : MCOracles σ) (cfg : MCConfig) (r1 : ℚ)
        (js : JumpState σ) (cur : ℚ × σ),
      findJumpTime o cfg r1 js cur ≠ Except.error normTolMsg) ∧
    findJumpTime oNoConv cfgNoConv (1 / 2) ⟨0, 1, 1, 1, 1⟩ (1, 1) =
      Except.ok (2, 10) := by
  constructor
  · intro σ o cfg r1 js cur h
    unfold findJumpTime at h
    cases hnl : normLoop o cfg r1 0 cfg.normSteps js cur with
    | error e =>
      have he := normLoop_error_msg o cfg r1 cfg.normSteps 0 js cur e hnl
      rw [hnl, he] at h
      simp only [Except.error.injEq] at h
      exact absurd h (by decide)
    | ok res =>
      obtain ⟨ii, t, y⟩ := res
      rw [hnl] at h
      dsimp only at h
      have hle := normLoop_counter_le o cfg r1 cfg.normSteps 0 js cur ii t y hnl
      rw [if_neg (by omega)] at h
      exact Except.noConfusion h
  · norm_num [findJumpTime, normLoop, jumpIter, oNoConv, cfgNoConv, abs_lt]

/-!
Claim C4 — channel selection at a jump.
-/

/-- Modelled from the spec wording of section 4.4 step 4: one decay weight
per channel `k` in channel-index order — the rate expectation for a
constant-rate channel, scaled by the squared modulus of the coefficient at
the jump time for a time-dependent-rate channel. -/
def specWeights {σ : Type} (o : MCOracles σ) (cfg : MCConfig) (t : ℚ)
    (y : σ) : List ℚ :=
  (List.range cfg.cNum).map fun k =>
    if k ∈ cfg.cTdInds then o.coefAbs k t ^ 2 * o.expectW k y
    else o.expectW k y

/-- A two-channel configuration in which the time-dependent channel 0
precedes the constant channel 1, so `c_const_inds = [1]` and
`c_td_inds = [0]`. -/
def cfgMixed : MCConfig :=
  { cNum := 2, cConstInds := [1], cTdInds := [0], tdCollapse := true,
    normTol := 1 / 100, normSteps := 5 }

/-- Oracles giving channel 0 the rate expectation 3 and channel 1 the rate
expectation 1, with unit coefficient. -/
def oMixed : MCOracles Unit :=
  { step := fun _ p => some p
    integrateTo := fun _ _ => some ()
    dznrm2 := fun _ => 1
    logQ := fun x => x
    expectW := fun i _ => if i = 0 then 3 else 1
    coefAbs := fun _ _ => 1
    applyC := fun _ y => y
    coefMul := fun _ _ y => y
    scaleDiv := fun _ y => y }

/-- Claim C4 as stated is violated by the source: with channel 0 time
dependent (weight 3) and channel 1 constant (weight 1), the source builds
`n_dp` in constant-first order `[1, 3]`, whose normalized cumulative sum is
`[1/4, 1]`, and at `r2 = 1/2` it selects index 1 — whereas the claimed
channel-index-order cumulative sum `[3/4, 1]` selects channel 0. -/
theorem selectChannel_mixed_counterexample :
    selectChannel (buildWeights oMixed cfgMixed 0 ()) (1 / 2) = some 1 ∧
    selectChannel (specWeights oMixed cfgMixed 0 ()) (1 / 2) = some 0 := by
  constructor <;>
    norm_num [selectChannel, cumProbs, cumsum, firstSatIdx, buildWeights,
      specWeights, oMixed, cfgMixed, List.range_succ]

/-- `firstSatIdx` returns the least index whose element satisfies `p`. -/
lemma firstSatIdx_spec (p : ℚ → Bool) :
    ∀ (l : List ℚ) (j : ℕ), firstSatIdx p l = some j →
      p (l.getD j 0) = true ∧ ∀ i, i < j → p (l.getD i 0) = false := by
  intro l
  induction l with
  | nil => intro j h; simp [firstSatIdx] at h
  | cons x xs ih =>
    intro j h
    by_cases hx : p x = true
    · simp only [firstSatIdx, if_pos hx, Option.some.injEq] at h
      subst h
      exact ⟨hx, fun i hi => absurd hi (by omega)⟩
    · simp only [firstSatIdx, if_neg hx, Option.map_eq_some'] at h
      obtain ⟨j', hj', rfl⟩ := h
      obtain ⟨h1, h2⟩ := ih j' hj'
      refine ⟨h1, fun i hi => ?_⟩
      cases i with
      | zero => simpa using Bool.eq_false_iff.mpr hx
      | succ i' => exact h2 i' (by omega)

/-- Claim C4, amended: the per-channel weight formulas are as stated, but
the cumulative sum runs over constant-rate channels in index order followed
by time-dependent-rate channels in index order, the selected position in
that concatenated list being used directly as the channel index.  Only when
every constant-rate channel index precedes every time-dependent one (so the
concatenation is `range(c_num)`) does the source's selection coincide with
selection over channel-index order; the selected index is then the lowest
whose cumulative normalized weight reaches `r2`, all lower indices staying
below `r2`. -/
theorem selectChannel_amended {σ : Type} (o : MCOracles σ) (cfg : MCConfig)
    (t : ℚ) (y : σ) (r2 : ℚ)
    (htd : cfg.tdCollapse = true)
    (hord : cfg.cConstInds ++ cfg.cTdInds = List.range cfg.cNum) :
    buildWeights o cfg t y = specWeights o cfg t y ∧
    selectChannel (buildWeights o cfg t y) r2 =
      selectChannel (specWeights o cfg t y) r2 ∧
    (∀ j, selectChannel (buildWeights o cfg t y) r2 = some j →
      r2 ≤ (cumProbs (buildWeights o cfg t y)).getD j 0 ∧
      ∀ i, i < j → (cumProbs (buildWeights o cfg t y)).getD i 0 < r2) := by
  have hdisj : ∀ a ∈ cfg.cConstInds, a ∉ cfg.cTdInds := by
    have hnd : (cfg.cConstInds ++ cfg.cTdInds).Nodup := by
      rw [hord]; exact List.nodup_range cfg.cNum
    have := List.nodup_append.mp hnd
    exact fun a ha hb => this.2.2 ha hb
  have hweights : buildWeights o cfg t y = specWeights o cfg t y := by
    unfold buildWeights specWeights
    rw [if_pos (by simp [htd]), ← hord, List.map_append]
    congr 1
    · exact List.map_congr_left fun a ha => by
        rw [if_neg (hdisj a ha)]
    · exact (List.map_congr_left fun a ha => by rw [if_pos ha]).symm
  refine ⟨hweights, by rw [hweights], fun j hj => ?_⟩
  obtain ⟨h1, h2⟩ := firstSatIdx_spec _ _ _ hj
  constructor
  · simpa using h1
  · intro i hi
    have := h2 i hi
    simpa using this

/-- A two-channel configuration with the constant channel 0 before the
time-dependent channel 1 (the ordering hypothesis of the amended claim). -/
def cfgOrd : MCConfig :=
  { cNum := 2, cConstInds := [0], cTdInds := [1], tdCollapse := true,
    normTol := 1 / 100, normSteps := 5 }

/-- Witness for the amended channel-selection theorem at a concrete
configuration satisfying its hypotheses. -/
theorem selectChannel_amended_witness :
    (cfgOrd.tdCollapse = true ∧
      cfgOrd.cConstInds ++ cfgOrd.cTdInds = List.range cfgOrd.cNum) ∧
    (buildWeights oMixed cfgOrd 0 () = specWeights oMixed cfgOrd 0 () ∧
      selectChannel (buildWeights oMixed cfgOrd 0 ()) (3 / 4) =
        selectChannel (specWeights oMixed cfgOrd 0 ()) (3 / 4) ∧
      (∀ j, selectChannel (buildWeights oMixed cfgOrd 0 ()) (3 / 4) = some j →
        (3 : ℚ) / 4 ≤ (cumProbs (buildWeights oMixed cfgOrd 0 ())).getD j 0 ∧
        ∀ i, i < j →
          (cumProbs (buildWeights oMixed cfgOrd 0 ())).getD i 0 < 3 / 4)) :=
  ⟨⟨rfl, by decide⟩,
    selectChannel_amended oMixed cfgOrd 0 () (3 / 4) rfl (by decide)⟩

/-!
Claim C6 — unit norm after a jump, integrator re-initialization and redraw.
-/

/-- Componentwise division scales the squared norm by the squared scalar. -/
lemma vecNormSq_vecDivR (v : List Qc) (s : ℚ) :
    vecNormSq (vecDivR v s) = vecNormSq v / s ^ 2 := by
  induction v with
  | nil => simp [vecNormSq, vecDivR]
  | cons c cs ih =>
    simp only [vecNormSq, vecDivR, List.map_cons, List.sum_cons] at *
    rw [ih]
    unfold Qc.modSq Qc.divR
    field_simp

/-- Claim C6: immediately after every jump the state handed back to the
integrator has unit Euclidean norm (`state / dznrm2(state)`, given the BLAS
contract that `dznrm2` squares to the sum of squared moduli and that the
collapsed state is nonzero), the integrator is re-initialized at the jump
time with that state, and two fresh uniform draws become the new
`(r1, r2)`, advancing the stream by two. -/
theorem postJumpUpdate_unit_norm (dz : List Qc → ℚ) (prng : ℕ → ℚ) (t : ℚ)
    (state0 : List Qc) (rIdx : ℕ)
    (hdz : dz state0 * dz state0 = vecNormSq state0)
    (hpos : 0 < vecNormSq state0) :
    vecNormSq (postJumpUpdate dz prng t state0 rIdx).y = 1 ∧
    (postJumpUpdate dz prng t state0 rIdx).t = t ∧
    (postJumpUpdate dz prng t state0 rIdx).r1 = prng rIdx ∧
    (postJumpUpdate dz prng t state0 rIdx).r2 = prng (rIdx + 1) ∧
    (postJumpUpdate dz prng t state0 rIdx).rIdx = rIdx + 2 := by
  refine ⟨?_, rfl, rfl, rfl, rfl⟩
  unfold postJumpUpdate
  simp only
  rw [vecNormSq_vecDivR, sq, hdz]
  exact div_self (ne_of_gt hpos)

/-- Witness for the post-jump theorem: the collapsed state `(3, 4i)` has
squared norm 25, `dznrm2` returns 5, and the normalized state `(3/5, 4i/5)`
has unit norm. -/
theorem postJumpUpdate_unit_norm_witness :
    ((fun _ => (5 : ℚ)) [Qc.mk 3 0, Qc.mk 0 4] *
        (fun _ => (5 : ℚ)) [Qc.mk 3 0, Qc.mk 0 4] =
      vecNormSq [Qc.mk 3 0, Qc.mk 0 4]) ∧
    (0 < vecNormSq [Qc.mk 3 0, Qc.mk 0 4]) ∧
    vecNormSq (postJumpUpdate (fun _ => 5) (fun i => (i : ℚ) / 10) 7
      [Qc.mk 3 0, Qc.mk 0 4] 2).y = 1 :=
  ⟨by norm_num [vecNormSq, Qc.modSq], by norm_num [vecNormSq, Qc.modSq],
    (postJumpUpdate_unit_norm (fun _ => 5) (fun i => (i : ℚ) / 10) 7
      [Qc.mk 3 0, Qc.mk 0 4] 2 (by norm_num [vecNormSq, Qc.modSq])
      (by norm_num [vecNormSq, Qc.modSq])).1⟩

/-!
Claim C8 — steady-state averaging equals the unweighted mean of all
per-trajectory, per-time density matrices.
-/

/-- Folding addition over a list starting from `b` is `b` plus the sum. -/
lemma foldl_add_map_sum {M : Type} [AddCommGroup M] (rho : ℕ → M) :
    ∀ (l : List ℕ) (b : M),
      l.foldl (fun x k => x + rho k) b = b + (l.map rho).sum := by
  intro l
  induction l with
  | nil => intro b; simp
  | cons k ks ih =>
    intro b
    simp only [List.foldl_cons, List.map_cons, List.sum_cons, ih, add_assoc]

/-- Splitting off the `k = 0` term of a sum over `range K`. -/
lemma sum_range_map_head {M : Type} [AddCommGroup M] (rho : ℕ → M) (K : ℕ)
    (hK : 1 ≤ K) :
    ((List.range K).map rho).sum =
      rho 0 + (((List.range K).drop 1).map rho).sum := by
  obtain ⟨m, rfl⟩ : ∃ m, K = m + 1 := ⟨K - 1, by omega⟩
  rw [List.range_succ_eq_map]
  simp

/-- The per-trajectory steady-state output is the mean over output times of
that trajectory's density matrices, provided the trajectory's time-0
density matrix is the initial outer product placed in the accumulator. -/
lemma ssTrajOut_eq_mean {M : Type} [AddCommGroup M] [Module ℚ M]
    (rhoInit : M) (rho : ℕ → M) (K : ℕ) (hK : 1 ≤ K)
    (h0 : rho 0 = rhoInit) :
    ssTrajOut rhoInit rho K = ((K : ℚ))⁻¹ • ((List.range K).map rho).sum := by
  unfold ssTrajOut
  rw [foldl_add_map_sum, sum_range_map_head rho K hK, h0]

/-- Claim C8: in steady-state averaging mode the final density matrix is
the running sum of the outer products over all trajectories and all
sampled output times, normalized by `ntraj * len(tlist)`, and this equals
the unweighted mean (`_mc_dm_avg`) of the flat list of all per-trajectory,
per-time density matrices. -/
theorem ssFinal_is_global_mean {M : Type} [AddCommGroup M] [Module ℚ M]
    (rhoInit : M) (rho : ℕ → ℕ → M) (n K : ℕ)
    (hK : 1 ≤ K) (hn : 1 ≤ n) (h0 : ∀ nt, rho nt 0 = rhoInit) :
    ssFinal rhoInit rho n K =
      ((n : ℚ) * K)⁻¹ •
        ((List.range n).map fun nt => ((List.range K).map (rho nt)).sum).sum ∧
    ssFinal rhoInit rho n K = mcDmAvg (allDms rho n K) := by
  have htraj : ∀ nt, ssTrajOut rhoInit (rho nt) K =
      ((K : ℚ))⁻¹ • ((List.range K).map (rho nt)).sum :=
    fun nt => ssTrajOut_eq_mean rhoInit (rho nt) K hK (h0 nt)
  have hmain : ssFinal rhoInit rho n K =
      ((n : ℚ) * K)⁻¹ •
        ((List.range n).map fun nt => ((List.range K).map (rho nt)).sum).sum := by
    unfold ssFinal mcDmAvg
    have hrw : ((List.range n).map fun nt => ssTrajOut rhoInit (rho nt) K) =
        (List.range n).map fun nt =>
          ((K : ℚ))⁻¹ • ((List.range K).map (rho nt)).sum :=
      List.map_congr_left fun nt _ => htraj nt
    rw [hrw]
    have hsmul :
        ((List.range n).map fun nt =>
          ((K : ℚ))⁻¹ • ((List.range K).map (rho nt)).sum).sum =
        ((K : ℚ))⁻¹ •
          ((List.range n).map fun nt => ((List.range K).map (rho nt)).sum).sum := by
    -- pull the constant scalar out of the sum
      rw [List.smul_sum, List.map_map]
      rfl
    rw [hsmul, smul_smul, List.length_map, List.length_range]
    congr 1
    rw [mul_inv]
  refine ⟨hmain, ?_⟩
  rw [hmain]
  unfold mcDmAvg allDms
  rw [List.sum_flatten, List.length_flatten, List.map_map, List.map_map]
  have hlen : ((List.range n).map (List.length ∘ fun nt =>
      (List.range K).map (rho nt))).sum = n * K := by
    have : ((List.range n).map (List.length ∘ fun nt =>
        (List.range K).map (rho nt))) = List.replicate n K := by
      rw [show (List.length ∘ fun nt => (List.range K).map (rho nt)) =
          fun _ => K from funext fun nt => by simp]
      rw [List.map_const']
      simp
    rw [this, List.sum_replicate, smul_eq_mul]
  rw [hlen]
  push_cast
  rfl

/-- Witness for the steady-state averaging theorem at `M = ℚ`,
`ntraj = 2`, two output times, constant density matrices. -/
theorem ssFinal_is_global_mean_witness :
    ((1 ≤ 2 ∧ 1 ≤ 2) ∧ ∀ nt : ℕ, (fun (_ _ : ℕ) => (1 : ℚ)) nt 0 = 1) ∧
    (ssFinal (1 : ℚ) (fun _ _ => 1) 2 2 =
      (((2 : ℕ) : ℚ) * ((2 : ℕ) : ℚ))⁻¹ •
        ((List.range 2).map fun nt =>
          ((List.range 2).map ((fun (_ _ : ℕ) => (1 : ℚ)) nt)).sum).sum ∧
      ssFinal (1 : ℚ) (fun _ _ => 1) 2 2 =
        mcDmAvg (allDms (fun (_ _ : ℕ) => (1 : ℚ)) 2 2)) :=
  ⟨⟨⟨by norm_num, by norm_num⟩, fun nt => rfl⟩,
    ssFinal_is_global_mean (1 : ℚ) (fun _ _ => 1) 2 2 (by norm_num)
      (by norm_num) (fun nt => rfl)⟩

/-!
Claims C9 and C10 — output selection with `ntraj = 1` and the no-collapse
override.
-/

/-- Claim C9: with `ntraj = 1` and both `average_states` and
`average_expect` off, `mcsolve` returns the trajectory engine's raw state
sequence when states were produced, and otherwise its raw expectation
sequence, with neither averaging reduction (`avgS`, `avgE`) applied. -/
theorem mcsolveOutput_single_traj_raw {α γ : Type} (psiOut : Option α)
    (expectOut : γ) (cflag : Bool) (avgS : α → α) (avgE : γ → γ) :
    mcsolveOutput psiOut expectOut false false cflag 1 avgS avgE =
      (match psiOut with
        | some p => (some p, (none : Option γ))
        | none => (none, some expectOut)) := by
  cases psiOut <;> simp [mcsolveOutput]

/-- Claim C10: with an empty collapse-operator list and a requested
trajectory count other than 1, the run overrides the count to 1 with a
printed notice, executes exactly one deterministic trajectory (no RNG
seeds are generated), and the returned metadata reports `ntraj = 1`. -/
theorem mcRunMeta_no_collapse (requested : ℕ) (h : requested ≠ 1) :
    mcRunMeta 0 requested = (1, true, 1, false) := by
  simp [mcRunMeta, h]

/-- Witness for the no-collapse override at a requested count of 5. -/
theorem mcRunMeta_no_collapse_witness :
    (5 ≠ 1) ∧ mcRunMeta 0 5 = (1, true, 1, false) :=
  ⟨by decide, mcRunMeta_no_collapse 5 (by decide)⟩

/-!
Claim C1 — serial path versus process-pool path.
-/

/-- A trajectory function whose buffer contents depend on the trajectory
index (as `_mc_alg_evolve`'s do through the per-trajectory seed), with
empty collapse logs. -/
def evAlias : ℕ → List ℚ → Option (List ℚ × List ℚ × List ℚ) :=
  fun nt _ => some ([if nt = 0 then 0 else 1], [], [])

/-- Claim C1 is violated by the source: a single trajectory behaves
identically under both paths (first conjunct), but with `num_cpus = 1` and
`ntraj = 2` the serial path, which threads the one shared `mc_alg_out`
object through both trajectories and stores references to it, returns the
last trajectory's buffer for every trajectory index, while the
process-pool path (`num_cpus = 2`), which pickles an independent buffer
copy per task, returns distinct per-trajectory buffers. -/
theorem serial_aliases_shared_buffer :
    (∀ (β : Type) (ev : ℕ → β → Option (β × List ℚ × List ℚ)) (init : β),
      mcSerial ev init 1 = mcParallelPool ev init 1) ∧
    mcRunTrajectories 1 evAlias [0] 2 =
      Except.ok ([[1], [1]], [[], []], [[], []]) ∧
    mcRunTrajectories 2 evAlias [0] 2 =
      Except.ok ([[0], [1]], [[], []], [[], []]) ∧
    ([[1], [1]] : List (List ℚ)) ≠ [[0], [1]] := by
  refine ⟨?_, ?_, ?_, ?_⟩
  · intro β ev init
    cases h : ev 0 init with
    | none => simp [mcSerial, mcParallelPool, serialGo, parallelGo, h]
    | some r =>
      obtain ⟨b, c, w⟩ := r
      simp [mcSerial, mcParallelPool, serialGo, parallelGo, h]
  · rfl
  · rfl
  · simp

/-!
Claim C7 — an integrator failure inside one trajectory.
-/

/-- Oracles whose adaptive step lands exactly on the target with state
`4/5`, but whose exact re-integration (used by the jump search) fails,
modelling a ZVODE failure after adjusting the step size. -/
def oFail : MCOracles ℚ :=
  { step := fun tk _ => some (tk, 4 / 5)
    integrateTo := fun _ _ => none
    dznrm2 := fun y => y
    logQ := fun x => x
    expectW := fun _ _ => 1
    coefAbs := fun _ _ => 1
    applyC := fun _ y => y
    coefMul := fun _ _ y => y
    scaleDiv := fun s y => y / s }

/-- Per-seed random streams: seed 0 draws `r1 = 1` (so the first accepted
step crosses the jump threshold and enters the failing jump search), seed 1
draws `r1 = 0` (so no jump is ever detected and the trajectory finishes). -/
def prngOfFail : ℕ → ℕ → ℚ := fun seed _ => if seed = 0 then 1 else 0

/-- The two-trajectory evolve function handed to the serial loop, exactly
`_mc_alg_evolve` over `oFail` with `tlist = [0, 1]` and seeds `[0, 1]`. -/
def evFail : ℕ → List ℚ → Option (List ℚ × List ℚ × List ℚ) :=
  fun nt buf =>
    match mcAlgEvolve oFail cfgNoConv prngOfFail 1 4 nt buf [0, 1] 2 [0, 1] with
    | some (_, b, c, w) => some (b, c, w)
    | none => none

/-- Claim C7 as stated is violated by the source: trajectory 0's integrator
failure is caught inside `_mc_alg_evolve`, which prints and returns `None`
(first conjunct), and trajectory 1 on its own succeeds (second conjunct) —
yet the serial ensemble aborts with the callback's `TypeError` on the
`None` result (third conjunct), so the failing trajectory is not silently
dropped with the rest of the ensemble intact. -/
theorem trajectory_error_aborts_serial_run :
    evFail 0 [1, 0] = none ∧
    (evFail 1 [1, 0]).isSome = true ∧
    mcSerial evFail [1, 0] 2 = Except.error typeErrorMsg := by
  refine ⟨?_, ?_, ?_⟩
  · norm_num [evFail, mcAlgEvolve, mcAlgEvolveCore, outerFold, innerLoop,
      findJumpTime, normLoop, jumpIter, oFail, cfgNoConv, prngOfFail]
  · norm_num [evFail, mcAlgEvolve, mcAlgEvolveCore, outerFold, innerLoop,
      findJumpTime, normLoop, jumpIter, oFail, cfgNoConv, prngOfFail]
  · norm_num [mcSerial, serialGo, evFail, mcAlgEvolve, mcAlgEvolveCore,
      outerFold, innerLoop, findJumpTime, normLoop, jumpIter, oFail,
      cfgNoConv, prngOfFail, List.range_succ]

/-- Claim C7, amended: an exception inside a trajectory is caught by
`_mc_alg_evolve`, which prints a message and returns `None`; the
orchestrator's callback then fails while indexing that `None`
(`r = results[0]`), so in the serial path the run aborts at the failing
trajectory instead of silently dropping it and keeping the other
trajectories' results. -/
theorem trajectory_error_aborts_serial {β : Type}
    (ev : ℕ → β → Option (β × List ℚ × List ℚ)) (init : β) (n : ℕ)
    (hn : 1 ≤ n) (h0 : ev 0 init = none) :
    mcSerial ev init n = Except.error typeErrorMsg := by
  obtain ⟨m, rfl⟩ : ∃ m, n = m + 1 := ⟨n - 1, by omega⟩
  unfold mcSerial
  rw [List.range_succ_eq_map]
  simp [serialGo, h0]

/-- Witness for the amended claim at the concrete failing ensemble. -/
theorem trajectory_error_aborts_serial_witness :
    ((1 ≤ 2) ∧ evFail 0 [1, 0] = none) ∧
    mcSerial evFail [1, 0] 2 = Except.error typeErrorMsg :=
  ⟨⟨by norm_num,
      by norm_num [evFail, mcAlgEvolve, mcAlgEvolveCore, outerFold, innerLoop,
        findJumpTime, normLoop, jumpIter, oFail, cfgNoConv, prngOfFail]⟩,
    trajectory_error_aborts_serial evFail [1, 0] 2 (by norm_num)
      (by norm_num [evFail, mcAlgEvolve, mcAlgEvolveCore, outerFold, innerLoop,
        findJumpTime, normLoop, jumpIter, oFail, cfgNoConv, prngOfFail])⟩

/-!
Claim C3 — the collapse log.  `np.append(collapse_times, ODE.t)` (line 858)
and `np.append(which_oper, j)` (line 896) return fresh arrays that the
source discards, so the arrays returned at line 954 are the empty arrays
created at lines 761-762 no matter how many jumps occur.
-/

/-- Oracles driving one jump: the first accepted step goes from `t = 0` to
`(1/2, 2/5)` whose squared norm `4/25` crosses `r1 = 1/4`; the exact
integration used by the jump search lands on the state `1/2` of squared
norm `1/4`, converging immediately; later steps land on the target with
state `4/5`. -/
def oJump : MCOracles ℚ :=
  { step := fun tk p => if p.1 = 0 then some (1 / 2, 2 / 5) else some (tk, 4 / 5)
    integrateTo := fun _ _ => some (1 / 2)
    dznrm2 := fun y => y
    logQ := fun x => if x = 4 then 2 else if x = 25 / 4 then 5 else 1
    expectW := fun _ _ => 1
    coefAbs := fun _ _ => 1
    applyC := fun _ _ => 3
    coefMul := fun _ _ y => y
    scaleDiv := fun s y => y / s }

/-- Random stream of the single trajectory: `(r1, r2) = (1/4, 1/2)`
initially, then `(1/9, 1/2)` after the jump. -/
def prngOfJump : ℕ → ℕ → ℚ :=
  fun _ i => if i = 0 then 1 / 4 else if i = 1 then 1 / 2
    else if i = 2 then 1 / 9 else 1 / 2

/-- Claim C3 is violated by the source: in a concrete trajectory over
`tlist = [0, 1]` exactly one jump occurs — visible in the final engine
state, whose random-stream index is 4 (the initial `prng.rand(2)` plus one
post-jump redraw) and whose threshold `r1 = 1/9` is the post-jump draw —
yet the returned `collapse_times` and `which_oper` arrays are both empty
instead of holding one entry for the jump. -/
theorem collapse_log_never_recorded :
    mcAlgEvolveCore oJump cfgNoConv prngOfJump 1 6 0 [1, 0] [0, 1] 2 [0] =
      Except.ok ([1, 1],
        { t := 1, y := 4 / 5, rIdx := 4, r1 := 1 / 9, r2 := 1 / 2,
          colTimes := [], whichOper := [] }) ∧
    mcAlgEvolve oJump cfgNoConv prngOfJump 1 6 0 [1, 0] [0, 1] 2 [0] =
      some (0, [1, 1], [], []) := by
  have h1 : mcAlgEvolveCore oJump cfgNoConv prngOfJump 1 6 0 [1, 0] [0, 1] 2 [0] =
      Except.ok ([1, 1],
        { t := 1, y := 4 / 5, rIdx := 4, r1 := 1 / 9, r2 := 1 / 2,
          colTimes := [], whichOper := [] }) := by
    norm_num [mcAlgEvolveCore, outerFold, innerLoop, findJumpTime, normLoop,
      jumpIter, selectChannel, cumProbs, cumsum, firstSatIdx, buildWeights,
      collapseApply, oJump, cfgNoConv, prngOfJump, abs_lt]
  refine ⟨h1, ?_⟩
  unfold mcAlgEvolve
  rw [h1]
